import Mathlib

/-!
Verification of the module-addressing layer of the `hq` development server
(`src/utils.mjs`) against its natural-language specification.

The JavaScript source is shallowly embedded: JSON-ish field values become the
inductive `JSVal` (absent fields are `undefined`, matching JavaScript's
`undefined`), the filesystem becomes an explicit existence predicate
`String → Bool`, promise rejection / thrown errors become `Except`, and
JavaScript truthiness (`undefined`, `false` and the empty string are falsy)
becomes the `truthy` predicate.  String scanning helpers are written as
structural recursions over `List Char` so that every definition evaluates by
kernel reduction on concrete inputs.
-/

deriving instance DecidableEq for Except

/-- A JavaScript value as it occurs in the descriptor fields this code reads:
either `undefined` (an absent key), a string, or a boolean. -/
inductive JSVal where
  | undefined : JSVal
  | str (s : String) : JSVal
  | boolean (b : Bool) : JSVal
deriving DecidableEq, Repr

/-- JavaScript truthiness restricted to `JSVal`: `undefined` and `false` are
falsy, and so is the empty string; every other string and `true` are truthy. -/
def truthy : JSVal → Bool
  | .undefined => false
  | .str s => !(s == "")
  | .boolean b => b

/-- The string payload of a `JSVal`; only meaningful where the surrounding
code has already established the value is a string. -/
def strOf : JSVal → String
  | .str s => s
  | _ => ""

/-- Whether a `JSVal` is a string, i.e. JavaScript's `typeof v === 'string'`. -/
def isStr : JSVal → Bool
  | .str _ => true
  | _ => false

/-- Whether a `JSVal` is a boolean, i.e. `typeof v === 'boolean'`. -/
def isBool : JSVal → Bool
  | .boolean _ => true
  | _ => false

/-- An optional JSON string field read as a JavaScript value. -/
def optToJS : Option String → JSVal
  | none => .undefined
  | some s => .str s

/-- Property lookup on a JavaScript object modelled as an association list
(first binding wins); a missing key reads as `undefined`. -/
def lookupJS (entries : List (String × JSVal)) (key : String) : JSVal :=
  match entries.find? (fun kv => kv.1 == key) with
  | some kv => kv.2
  | none => .undefined

/-- Splitting worker for `jsSplit`, structurally recursive on a fuel argument
so concrete instances reduce inside the kernel.  The fuel is always at least
the length of the remaining text, so the fuel-exhausted clause is dead code. -/
def splitFuel (sep : List Char) : Nat → List Char → List Char → List (List Char)
  | _, [], acc => [acc.reverse]
  | 0, l, acc => [acc.reverse ++ l]
  | fuel + 1, c :: rest, acc =>
    if sep.isPrefixOf (c :: rest) then
      acc.reverse :: splitFuel sep fuel (rest.drop (sep.length - 1)) []
    else
      splitFuel sep fuel rest (c :: acc)

/-- JavaScript's `text.split(sep)` for a non-empty separator (the only way the
source uses it): the maximal list of chunks between occurrences of `sep`. -/
def jsSplit (sep text : String) : List String :=
  if sep.data.isEmpty then [text]
  else (splitFuel sep.data text.data.length text.data []).map (fun l => String.mk l)

/-- JavaScript's `text.endsWith(suffix)`, computed on the character lists. -/
def strEndsWith (text suffix : String) : Bool :=
  suffix.data.isSuffixOf text.data

/-- The last `/`-separated component of a path (its filename / basename). -/
def basenameOf (p : String) : String :=
  (jsSplit "/" p).getLastD p

/-! ## Path Classifier: source dialects and compiled output types -/

/-- The recognized source-dialect extensions, in the order `isSource` lists
them (src/utils.mjs lines 105-122). -/
def SOURCE_EXTS : List String :=
  [".pug", ".html", ".css", ".scss", ".sass", ".less", ".js", ".jsx", ".mjs",
   ".es6", ".vue", ".svelte", ".ts", ".tsx", ".coffee", ".map"]

/-- Embeds `isSource` (src/utils.mjs): membership in the dialect list. -/
def isSource (ext : String) : Bool :=
  SOURCE_EXTS.contains ext

/-- Embeds `getResType` (src/utils.mjs lines 124-139): maps a source dialect
extension to its compiled output extension, leaving unrecognized extensions
unchanged.  The JavaScript `switch` with fall-through becomes an equality
chain. -/
def getResType (ext : String) : String :=
  if ext == ".jsx" || ext == ".ts" || ext == ".tsx" || ext == ".es6" ||
     ext == ".vue" || ext == ".svelte" || ext == ".coffee" then ".js"
  else if ext == ".scss" || ext == ".sass" || ext == ".less" then ".css"
  else if ext == ".pug" then ".html"
  else ext

/-! ## Path Classifier: the worker regular expression

`WORKER_REXP = /(worker|sw)\d*\b/i` and `isWorker = p => WORKER_REXP.test(p)`
(src/utils.mjs lines 24 and 99).  The regex engine is embedded directly: a
match starts at some position of the searched string, consumes `worker` or
`sw` case-insensitively, then a maximal run of decimal digits, and must end at
a word boundary.  Since every character the atom consumes is a word character,
the trailing `\b` holds exactly when the next character is absent or is not a
word character, and the greedy `\d*` never needs to backtrack (giving a digit
back would put the boundary between two digits). -/

/-- JavaScript's `\w` class: ASCII letters, decimal digits and underscore. -/
def isWordChar (c : Char) : Bool :=
  c.isAlpha || c.isDigit || c == '_'

/-- Case-insensitive prefix test: `pat` (given in lowercase) matches the
start of `s` after lowercasing `s`. -/
def lowerEq : List Char → List Char → Bool
  | [], _ => true
  | _ :: _, [] => false
  | p :: ps, c :: cs => (c.toLower == p) && lowerEq ps cs

/-- The trailing `\b` of the worker regex: the remainder of the string starts
with a non-word character or is empty (the character just matched is always a
word character). -/
def boundaryAfter : List Char → Bool
  | [] => true
  | c :: _ => !(isWordChar c)

/-- Does `(worker|sw)\d*\b` (case-insensitive) match at the start of `s`? -/
def matchAt (s : List Char) : Bool :=
  (lowerEq "worker".data s && boundaryAfter ((s.drop 6).dropWhile Char.isDigit)) ||
  (lowerEq "sw".data s && boundaryAfter ((s.drop 2).dropWhile Char.isDigit))

/-- Unanchored regex search: try `matchAt` at every position. -/
def scanAux : List Char → Bool
  | [] => matchAt []
  | l@(_ :: rest) => matchAt l || scanAux rest

/-- Embeds `WORKER_REXP.test`: the search succeeds somewhere in the string. -/
def workerRexpTest (s : String) : Bool :=
  scanAux s.data

/-- Embeds `isWorker` (src/utils.mjs line 99): the regex is tested against the
whole request path. -/
def isWorker (filePath : String) : Bool :=
  workerRexpTest filePath

/-! ## getVersion -/

/-- The maximal runs of decimal digits in a character list, left to right:
the semantics of JavaScript's `text.match(/\d+/g)`, with the empty result
list standing for the `null` that `match` returns when nothing matches. -/
def digitRunsAux : List Char → List Char → List (List Char)
  | [], acc => if acc.isEmpty then [] else [acc.reverse]
  | c :: rest, acc =>
    if c.isDigit then digitRunsAux rest (c :: acc)
    else if acc.isEmpty then digitRunsAux rest []
    else acc.reverse :: digitRunsAux rest []

/-- All maximal digit runs of a character list. -/
def digitRuns (l : List Char) : List (List Char) :=
  digitRunsAux l []

/-- Decimal value of a digit run, the effect of JavaScript's `Number` on a
string of digits. -/
def natOfDigits (l : List Char) : Nat :=
  l.foldl (fun acc c => 10 * acc + (c.toNat - '0'.toNat)) 0

/-- What `getVersion` produces when it returns: either the empty record `{}`
or a `{major, minor, patch}` record.  A `none` component models the `NaN`
that `Number(undefined)` yields when the version string has fewer than three
digit runs to destructure. -/
inductive VersionResult where
  | empty : VersionResult
  | record (major minor patch : Option Nat) : VersionResult
deriving DecidableEq, Repr

/-- Embeds `getVersion` (src/utils.mjs lines 66-76).  `dependencies` is the
optional dependency map; a missing map or entry returns `{}` via the two
truthiness guards (note the guard `!version` also catches an empty version
string).  Otherwise the digits of the version are extracted with
`version.match(/\d+/g)`; when that yields `null` (no digit anywhere), the
array destructuring of `null` throws a `TypeError`, modelled as `.error ()`. -/
def getVersion (dependencies : Option (List (String × String))) (name : String) :
    Except Unit VersionResult :=
  match dependencies with
  | none => .ok .empty
  | some deps =>
    match deps.find? (fun kv => kv.1 == name) with
    | none => .ok .empty
    | some kv =>
      if kv.2 == "" then .ok .empty
      else
        match digitRuns kv.2.data with
        | [] => .error ()
        | runs =>
          .ok (.record ((runs.get? 0).map natOfDigits)
            ((runs.get? 1).map natOfDigits) ((runs.get? 2).map natOfDigits))

/-! ## Extension Prober -/

/-- Embeds `findExistingExtension` (src/utils.mjs lines 175-190) over an
explicit filesystem-existence predicate `fs` standing for `fs.pathExists`.
The candidate extensions are tested in the source's fixed order,
short-circuiting on the first hit; `.html` is probed first for paths ending
in `index` and last otherwise, and if nothing exists the function throws
`File <filepath> not found`, modelled as `.error`. -/
def findExistingExtension (fs : String → Bool) (filepath : String) :
    Except String String :=
  if strEndsWith filepath "index" && fs (filepath ++ ".html") then .ok ".html"
  else if fs (filepath ++ ".jsx") then .ok ".jsx"
  else if fs (filepath ++ ".vue") then .ok ".vue"
  else if fs (filepath ++ ".svelte") then .ok ".svelte"
  else if fs (filepath ++ ".mjs") then .ok ".mjs"
  else if fs (filepath ++ ".json") then .ok ".json"
  else if fs (filepath ++ ".ts") then .ok ".ts"
  else if fs (filepath ++ ".tsx") then .ok ".tsx"
  else if fs (filepath ++ ".coffee") then .ok ".coffee"
  else if fs (filepath ++ ".es6") then .ok ".es6"
  else if fs (filepath ++ ".js") then .ok ".js"
  else if fs filepath then .ok ""
  else if !(strEndsWith filepath "index") && fs (filepath ++ ".html") then .ok ".html"
  else .error ("File " ++ filepath ++ " not found")

/-- The middle candidates of the prober, shared by both readings of the
claim: component dialects, module dialect, data, typed-script dialects,
legacy compile-to-script dialects, plain script, and the bare path (the empty
extension). -/
def CANDIDATE_EXTS : List String :=
  [".jsx", ".vue", ".svelte", ".mjs", ".json", ".ts", ".tsx", ".coffee",
   ".es6", ".js", ""]

/-- First extension of `candidates` for which `p ++ ext` exists, else the
file-not-found error `err`. -/
def probeFirst (fs : String → Bool) (p err : String) : List String → Except String String
  | [] => .error err
  | e :: rest => if fs (p ++ e) then .ok e else probeFirst fs p err rest

/-- Modelled from the claim's words: the prober as an ordered first-match
list in which `.html` comes first exactly when the BASENAME of the probed
path is `index`, and last otherwise; on no match it fails with the
file-not-found error carrying the probed base path. -/
def specProbeBasename (fs : String → Bool) (p : String) : Except String String :=
  probeFirst fs p ("File " ++ p ++ " not found")
    ((if basenameOf p == "index" then [".html"] else []) ++ CANDIDATE_EXTS ++
      (if basenameOf p == "index" then [] else [".html"]))

/-- The amended reading: identical to `specProbeBasename` except that the
`.html`-first case triggers whenever the probed path ENDS WITH `index`
(the code's `filepath.endsWith('index')`), not only when its basename is
exactly `index`. -/
def specProbeEndsWith (fs : String → Bool) (p : String) : Except String String :=
  probeFirst fs p ("File " ++ p ++ " not found")
    ((if strEndsWith p "index" then [".html"] else []) ++ CANDIDATE_EXTS ++
      (if strEndsWith p "index" then [] else [".html"]))

/-! ## Package descriptors and the browser-aware resolver -/

/-- The polymorphic `browser` descriptor field: absent, a single replacement
path for the whole package, or a mapping from request-path keys to
replacement strings or booleans. -/
inductive BrowserField where
  | absent : BrowserField
  | bstr (s : String) : BrowserField
  | bmap (entries : List (String × JSVal)) : BrowserField
deriving DecidableEq, Repr

/-- The package-descriptor subset the code reads (`readPackageJSON` keeps
exactly the fields `browser`, `main`, `module`, `version`); `none` models an
absent field. -/
structure PackageJSON where
  main : Option String
  module : Option String
  browser : BrowserField
  version : Option String
deriving DecidableEq, Repr

/-- Node's `path.extname` for the forward-slash paths this code handles: the
substring of the last path component from its final dot, or the empty string
when the component has no dot, consists of the two-dot parent marker, or has
its only dot in leading position. -/
def extname (p : String) : String :=
  let cs := (basenameOf p).data
  if cs = ['.', '.'] then ""
  else
    let tail := cs.reverse.takeWhile (fun c => !(c == '.'))
    if tail.length = cs.length then ""
    else if cs.length - tail.length - 1 = 0 then ""
    else String.mk ('.' :: tail.reverse)

/-- JavaScript's `pkgPath.slice(0, -path.extname(pkgPath).length)` from
`resolveOrModify`: with a non-empty extension this drops the extension; with
an empty one, `slice(0, -0)` is `slice(0, 0)`, the empty string. -/
def pkgBasenameOf (pkgPath : String) : String :=
  let extLen := (extname pkgPath).length
  if extLen = 0 then "" else String.mk (pkgPath.data.take (pkgPath.data.length - extLen))

/-- What one run of `resolveOrModify` does to the shared result record: leave
it alone, set `result.modified` and rewrite `pkg.main` to a replacement, or
set `result.resolved` and resolve the promise to the empty-module path. -/
inductive Probe where
  | nochange : Probe
  | modified (s : String) : Probe
  | disabled : Probe
deriving DecidableEq, Repr

/-- Embeds `resolveOrModify` (src/utils.mjs lines 242-269): the browser
mapping is probed under four key variants in order — the request path itself,
its `./`-prefixed form, the `./`-prefixed form with `.js` appended, and the
`./`-prefixed extension-less basename with `.js` appended.  At each variant a
string value rewrites `main` and marks the result modified, and a boolean
value (of either polarity — the test is `typeof === 'boolean'`) resolves to
the empty module; an absent key falls through to the next variant. -/
def resolveOrModify (browser : List (String × JSVal)) (pkgPath : String) : Probe :=
  match lookupJS browser pkgPath with
  | .str s => .modified s
  | .boolean _ => .disabled
  | .undefined =>
  match lookupJS browser ("./" ++ pkgPath) with
  | .str s => .modified s
  | .boolean _ => .disabled
  | .undefined =>
  match lookupJS browser ("./" ++ pkgPath ++ ".js") with
  | .str s => .modified s
  | .boolean _ => .disabled
  | .undefined =>
  match lookupJS browser ("./" ++ pkgBasenameOf pkgPath ++ ".js") with
  | .str s => .modified s
  | .boolean _ => .disabled
  | .undefined => .nochange

/-- Which key the descriptor filter probes the browser mapping with: the
sub-path of the request when there is one, else the package's original
`main`, else its `module` field (each guarded by JavaScript truthiness). -/
def probeKeyOf (pkg : PackageJSON) (modPath : String) : Option String :=
  if modPath ≠ "" then some modPath
  else if truthy (optToJS pkg.main) then some (strOf (optToJS pkg.main))
  else if truthy (optToJS pkg.module) then some (strOf (optToJS pkg.module))
  else none

/-- The `main` the filter starts from: `if (pkg.module) pkg.main = pkg.module`. -/
def mainAfterModule (pkg : PackageJSON) : JSVal :=
  if truthy (optToJS pkg.module) then optToJS pkg.module else optToJS pkg.main

/-- The observable outcome of the `packageFilter` hook: the package's `main`
after filtering plus the two flags of the shared `result` record. -/
structure FilterOut where
  main : JSVal
  modified : Bool
  resolved : Bool
deriving DecidableEq, Repr

/-- Embeds the `packageFilter` closure of `resolvePackageFrom` (src/utils.mjs
lines 305-319).  A string-typed `browser` replaces `main` outright; a mapping
is probed by `resolveOrModify` with the key chosen by `probeKeyOf` (note the
original `main`, captured before the `module` rewrite, is what gets probed). -/
def packageFilter (pkg : PackageJSON) (modPath : String) : FilterOut :=
  match pkg.browser with
  | .bstr s => { main := .str s, modified := false, resolved := false }
  | .absent => { main := mainAfterModule pkg, modified := false, resolved := false }
  | .bmap m =>
    match probeKeyOf pkg modPath with
    | none => { main := mainAfterModule pkg, modified := false, resolved := false }
    | some k =>
      match resolveOrModify m k with
      | .nochange => { main := mainAfterModule pkg, modified := false, resolved := false }
      | .modified s => { main := .str s, modified := true, resolved := false }
      | .disabled => { main := mainAfterModule pkg, modified := false, resolved := true }

/-- The package name of a request: the text after the last `/node_modules/`
marker of the dependency path (`parts[parts.length - 1]`). -/
def modNameOf (dpath : String) : String :=
  (jsSplit "/node_modules/" dpath).getLastD ""

/-- The sub-path inside the requested package:
`modName.split('/').slice(1).join('/')`. -/
def subPathOf (dpath : String) : String :=
  "/".intercalate ((jsSplit "/" (modNameOf dpath)).drop 1)

/-- The candidate extensions `resolvePackageFrom` passes to the resolution
library, in order (src/utils.mjs lines 288-304). -/
def EXTENSIONS : List String :=
  [".js", ".jsx", ".mjs", ".es6", ".vue", ".svelte", ".ts", ".tsx", ".coffee",
   ".css", ".scss", ".sass", ".less", ".pug", ".html"]

/-- Modelled from the spec: the file probing of the underlying Node-style
resolution library (spec 4.5 step 3), which is an external dependency and not
part of this repository.  Given a base path it tries the bare path, then the
base with each candidate extension, then `base/index` with each extension,
returning the first that exists. -/
def resolveCandidate (fs : String → Bool) (base : String) : Option String :=
  if fs base then some base
  else
    match EXTENSIONS.find? (fun e => fs (base ++ e)) with
    | some e => some (base ++ e)
    | none =>
      match EXTENSIONS.find? (fun e => fs (base ++ "/index" ++ e)) with
      | some e => some (base ++ "/index" ++ e)
      | none => none

/-- Modelled from the spec: the base path the library probes inside the
candidate package directory — the requested sub-path when there is one, else
the (filtered) package entry, else the directory itself. -/
def targetOf (pkgDir : String) (pkg : PackageJSON) (modPath : String) : String :=
  if modPath ≠ "" then pkgDir ++ "/" ++ modPath
  else if truthy (packageFilter pkg modPath).main then
    pkgDir ++ "/" ++ strOf (packageFilter pkg modPath).main
  else pkgDir

set_option linter.unusedVariables false in
/-- Embeds `resolvePackageFrom` (src/utils.mjs lines 271-330).  The external
resolution library is modelled from the spec (4.5): it locates the candidate
package at `pkgDir` with descriptor `pkg`, runs `packageFilter` once before
any file probing, probes files through `resolveCandidate`, and consults
`pathFilter` — which returns the rewritten `main` when the filter marked the
package modified and the library's own relative choice otherwise.  `isCore`
stands for `resolvePackage.isCore`; a built-in specifier resolves to itself
with the trailing namespace marker the code appends.  When the filter set
`result.resolved`, the promise was already resolved to
`<hqroot>/hq-empty-module.js` inside the filter and the library callback
returns without touching it, so the library's own outcome — success or error —
is discarded; `basedir` only seeds the library's directory walk, which the
single-candidate model abstracts. -/
def resolvePackageFrom (isCore fs : String → Bool) (pkgDir : String)
    (pkg : PackageJSON) (basedir dpath hqroot : String) : Except String String :=
  if isCore (modNameOf dpath) then .ok (modNameOf dpath ++ "/")
  else if (packageFilter pkg (subPathOf dpath)).resolved then
    .ok (hqroot ++ "/hq-empty-module.js")
  else
    match resolveCandidate fs (targetOf pkgDir pkg (subPathOf dpath)) with
    | none => .error ("Cannot find module " ++ dpath)
    | some picked =>
      .ok (if (packageFilter pkg (subPathOf dpath)).modified then
             pkgDir ++ "/" ++ strOf (packageFilter pkg (subPathOf dpath)).main
           else picked)

/-! ## Entry Resolver -/

/-- The operand `typeof packageJSON.browser === 'string' && packageJSON.browser`. -/
def browserAsString (pkg : PackageJSON) : JSVal :=
  match pkg.browser with
  | .bstr s => .str s
  | _ => .undefined

/-- The operand `typeof browser === 'object' && browser && main &&
(browser['./' + main] || browser[main])` of `resolvePackageMain`; falsy
sub-expressions collapse to `undefined`, which has the same truthiness. -/
def browserMainSub (pkg : PackageJSON) : JSVal :=
  match pkg.browser, pkg.main with
  | .bmap m, some mn =>
    if mn == "" then .undefined
    else if truthy (lookupJS m ("./" ++ mn)) then lookupJS m ("./" ++ mn)
    else lookupJS m mn
  | _, _ => .undefined

/-- Embeds `resolvePackageMain` (src/utils.mjs lines 228-240) with the
descriptor already read (the cache lookup of `readPackageJSON` is the
identity here) and the filesystem explicit.  The JavaScript `||` chain
returns its first truthy operand: the `module` field, else a string-typed
`browser`, else — when `browser` is a mapping and `main` is truthy — the
mapping's value under the `./`-prefixed `main` key or else under the plain
`main` key, else the `main` field, else `index` with the first extension the
prober finds for `<dirPath>/index` (only this last operand can throw). -/
def resolvePackageMain (fs : String → Bool) (pkg : PackageJSON) (dirPath : String) :
    Except String JSVal :=
  if truthy (optToJS pkg.module) then .ok (optToJS pkg.module)
  else if truthy (browserAsString pkg) then .ok (browserAsString pkg)
  else if truthy (browserMainSub pkg) then .ok (browserMainSub pkg)
  else if truthy (optToJS pkg.main) then .ok (optToJS pkg.main)
  else
    match findExistingExtension fs (dirPath ++ "/index") with
    | .ok ext => .ok (.str ("index" ++ ext))
    | .error e => .error e

/-- First truthy value of a candidate list, if any. -/
def firstTruthy : List JSVal → Option JSVal
  | [] => none
  | v :: rest => if truthy v then some v else firstTruthy rest

/-- Modelled from the spec's words (4.4) for comparison with the code: the
entry is selected from an ordered priority list — the `module` field; else a
string-typed `browser`; else, for a mapping `browser` with a truthy `main`,
the substitution stored under the `./`-prefixed `main` key or the plain
`main` key (the `./`-prefixed variant is consulted first); else the `main`
field; else `index` with the extension the prober finds.  "Present" is read
as JavaScript-truthy throughout, matching the `||` chain being described. -/
def specPackageMainPriority (fs : String → Bool) (pkg : PackageJSON)
    (dirPath : String) : Except String JSVal :=
  match firstTruthy
      [optToJS pkg.module, browserAsString pkg, browserMainSub pkg, optToJS pkg.main] with
  | some v => .ok v
  | none =>
    match findExistingExtension fs (dirPath ++ "/index") with
    | .ok ext => .ok (.str ("index" ++ ext))
    | .error e => .error e

/-! ## Listener Bootstrap -/

/-- The fixed retry ceiling (src/utils.mjs line 8). -/
def MAX_RETRY : Nat := 30

/-- Embeds `getFreeServer` (src/utils.mjs lines 348-384), with binding
abstracted as `bindErr`: the bind error the network stack reports for a given
port, or `none` when the listener binds.  A successful bind resolves with the
bound listener (represented by its port); a failed bind checks the retry
counter against the ceiling — beyond it the error is rethrown to the caller,
otherwise the whole bootstrap is retried with the next port and an
incremented counter. -/
def getFreeServer {E : Type} (bindErr : Nat → Option E) (port retry : Nat) :
    Except E Nat :=
  match bindErr port with
  | none => .ok port
  | some err =>
    if MAX_RETRY < retry then .error err
    else getFreeServer bindErr (port + 1) (retry + 1)
termination_by MAX_RETRY + 1 - retry
decreasing_by simp_wf; omega

/-! ## Spec-side predicates for the worker claim -/

/-- Left word boundary relative to the character preceding the current
position (`none` at the start of the string). -/
def wordBoundaryBefore : Option Char → Bool
  | none => true
  | some c => !(isWordChar c)

/-- Scan that only accepts a match starting at a left word boundary,
threading the previous character. -/
def specScanAux : Option Char → List Char → Bool
  | prev, [] => wordBoundaryBefore prev && matchAt []
  | prev, l@(c :: rest) =>
    (wordBoundaryBefore prev && matchAt l) || specScanAux (some c) rest

/-- Modelled from the claim's words: the FILENAME (sans directory) contains
`worker` or `sw`, optionally followed by digits, case-insensitively, as a
whole-word token — i.e. with word boundaries on BOTH sides. -/
def specWorkerFilename (p : String) : Bool :=
  specScanAux none (basenameOf p).data

/-- The declarative reading of what `WORKER_REXP` accepts: somewhere in the
string (directories included) sits `worker` or `sw` up to case, followed by
a digit run, followed by a remainder that starts with a non-word character
or is empty; nothing is required of the characters before the token. -/
def workerOccurs (s : String) : Prop :=
  ∃ pre tok ds suf : List Char,
    s.data = pre ++ tok ++ ds ++ suf ∧
    (tok.map Char.toLower = "worker".data ∨ tok.map Char.toLower = "sw".data) ∧
    (∀ c ∈ ds, c.isDigit = true) ∧
    boundaryAfter suf = true

/-! ## Helper lemmas -/

/-- A character list with no digit anywhere has no digit run. -/
theorem digitRunsAux_eq_nil (l : List Char) (h : ∀ c ∈ l, c.isDigit = false) :
    digitRunsAux l [] = [] := by
  induction l with
  | nil => rfl
  | cons c rest ih =>
    have hc : c.isDigit = false := h c (List.mem_cons_self c rest)
    simp [digitRunsAux, hc]
    exact ih fun d hd => h d (List.mem_cons_of_mem c hd)

/-! ## C8: getResType is idempotent on the source-dialect set -/

/-- C8 (confirmed): for every extension accepted by `isSource`, applying
`getResType` twice gives the same extension as applying it once. -/
theorem getResType_idempotent_on_source (ext : String) (h : isSource ext = true) :
    getResType (getResType ext) = getResType ext := by
  have hm : ext ∈ SOURCE_EXTS := List.mem_of_elem_eq_true h
  fin_cases hm <;> decide

/-- Witness for C8 at the concrete extension `.jsx`. -/
theorem getResType_idempotent_on_source_witness :
    getResType (getResType ".jsx") = getResType ".jsx" :=
  getResType_idempotent_on_source ".jsx" (by decide)

/-! ## C10: getVersion on missing entries and digit-free versions -/

/-- C10 (confirmed): `getVersion` answers the empty record when the
dependency map is absent or has no entry under the requested name (either
truthiness guard, the second of which also absorbs a present-but-empty
version string); and for every present (truthy) version string without a
single decimal digit it throws — `version.match(/\d+/g)` is `null` and the
array destructuring of `null` raises a `TypeError` — instead of returning. -/
theorem getVersion_empty_or_throws :
    (∀ name : String, getVersion none name = .ok .empty) ∧
    (∀ (deps : List (String × String)) (name : String),
      deps.find? (fun kv => kv.1 == name) = none →
      getVersion (some deps) name = .ok .empty) ∧
    (∀ (deps : List (String × String)) (name : String) (kv : String × String),
      deps.find? (fun kv => kv.1 == name) = some kv →
      kv.2 ≠ "" → (∀ c ∈ kv.2.data, c.isDigit = false) →
      getVersion (some deps) name = .error ()) := by
  refine ⟨fun name => rfl, fun deps name hfind => ?_, fun deps name kv hfind hne hnd => ?_⟩
  · simp [getVersion, hfind]
  · have hruns : digitRuns kv.2.data = [] := digitRunsAux_eq_nil kv.2.data hnd
    simp [getVersion, hfind, hne, hruns]

/-- Witness for C10: a missing map, a missing entry, and the version string
`latest`, which has no digit and therefore throws. -/
theorem getVersion_empty_or_throws_witness :
    getVersion none "x" = .ok .empty ∧
    getVersion (some [("a", "1.0.0")]) "b" = .ok .empty ∧
    getVersion (some [("left-pad", "latest")]) "left-pad" = .error () :=
  ⟨getVersion_empty_or_throws.1 "x",
   getVersion_empty_or_throws.2.1 [("a", "1.0.0")] "b" (by decide),
   getVersion_empty_or_throws.2.2 [("left-pad", "latest")] "left-pad"
     ("left-pad", "latest") (by decide) (by decide) (by decide)⟩

/-! ## C6: the listener bootstrap's bounded retry -/

/-- C6 (confirmed): when a bind attempt fails, the bootstrap retries the
whole attempt with the port incremented by one exactly while the retry
counter has not exceeded the fixed ceiling `MAX_RETRY = 30`; once the
counter exceeds the ceiling, the bootstrap fails by rethrowing the
underlying bind error to the caller. -/
theorem getFreeServer_retry_ceiling :
    (∀ (E : Type) (bindErr : Nat → Option E) (port retry : Nat) (err : E),
      bindErr port = some err → retry ≤ MAX_RETRY →
      getFreeServer bindErr port retry = getFreeServer bindErr (port + 1) (retry + 1)) ∧
    (∀ (E : Type) (bindErr : Nat → Option E) (port retry : Nat) (err : E),
      bindErr port = some err → MAX_RETRY < retry →
      getFreeServer bindErr port retry = .error err) := by
  constructor
  · intro E bindErr port retry err hb hle
    conv_lhs => rw [getFreeServer]
    simp [hb, Nat.not_lt.mpr hle]
  · intro E bindErr port retry err hb hgt
    rw [getFreeServer]
    simp [hb, hgt]

/-- Witness for C6: a network stack on which every port is occupied; at
retry counter 0 the bootstrap moves to the next port, at counter 31 (the
first value beyond the ceiling) it surfaces the bind error. -/
theorem getFreeServer_retry_ceiling_witness :
    getFreeServer (fun _ => some 7) 3000 0 = getFreeServer (fun _ => some 7) 3001 1 ∧
    getFreeServer (fun _ => some 7) 3000 31 = .error 7 :=
  ⟨getFreeServer_retry_ceiling.1 Nat (fun _ => some 7) 3000 0 7 rfl (by decide),
   getFreeServer_retry_ceiling.2 Nat (fun _ => some 7) 3000 31 7 rfl (by decide)⟩

/-! ## C4: the prober on `/p/index` -/

/-- C4 (counterexample): with both `/p/index.jsx` and `/p/index.html` on
disk, `findExistingExtension '/p/index'` does NOT return `.jsx` — the probed
path ends in `index`, so the markup probe runs before the `.jsx` probe. -/
theorem findExistingExtension_index_both_cex :
    findExistingExtension (fun t => t == "/p/index.html" || t == "/p/index.jsx")
      "/p/index" ≠ .ok ".jsx" := by decide

/-- C4 (amended): `findExistingExtension '/p/index'` returns `.html` when
only `/p/index.html` exists, and still returns `.html` — not `.jsx` — when
both `/p/index.jsx` and `/p/index.html` exist, because the markup probe
comes first for paths ending in `index`. -/
theorem findExistingExtension_index_html_first :
    findExistingExtension (fun t => t == "/p/index.html") "/p/index" = .ok ".html" ∧
    findExistingExtension (fun t => t == "/p/index.html" || t == "/p/index.jsx")
      "/p/index" = .ok ".html" := by decide

/-! ## C5: the prober's candidate order -/

/-- C5 (counterexample): the claim keys the early markup probe on the
BASENAME being `index`, but the code keys it on `endsWith('index')`.  For
`/p/myindex` with both `/p/myindex.html` and `/p/myindex.jsx` on disk the
code answers `.html` while the claimed order answers `.jsx`. -/
theorem findExistingExtension_basename_order_cex :
    findExistingExtension (fun t => t == "/p/myindex.html" || t == "/p/myindex.jsx")
        "/p/myindex" ≠
      specProbeBasename (fun t => t == "/p/myindex.html" || t == "/p/myindex.jsx")
        "/p/myindex" := by decide

/-- C5 (amended): `findExistingExtension` equals the ordered first-match
probe over — markup (only when the path ENDS WITH `index`), component
dialects, module dialect, data, typed-script dialects, legacy
compile-to-script dialects, plain script, the bare path, and markup again
for paths not ending in `index` — failing with the file-not-found error
carrying the probed base path when nothing exists. -/
theorem findExistingExtension_probe_order (fs : String → Bool) (p : String) :
    findExistingExtension fs p = specProbeEndsWith fs p := by
  by_cases hIdx : strEndsWith p "index" <;>
    simp [findExistingExtension, specProbeEndsWith, probeFirst, CANDIDATE_EXTS,
      hIdx, String.append_empty]

/-! ## C3: resolvePackageMain's priority order -/

/-- C3 (confirmed): `resolvePackageMain` selects exactly the spec's priority
list — the `module` field if present (JavaScript-truthy); else `browser`
itself when `browser` is a string; else, when `browser` is a mapping and
`main` is present, the substitution stored under the `./`-prefixed `main`
key or the plain `main` key (the `./`-prefixed variant first, mirroring the
`||` in the source); else the `main` field; else `index` concatenated with
the first extension the prober finds for `<dirPath>/index`. -/
theorem resolvePackageMain_priority (fs : String → Bool) (pkg : PackageJSON)
    (dirPath : String) :
    resolvePackageMain fs pkg dirPath = specPackageMainPriority fs pkg dirPath := by
  simp only [resolvePackageMain, specPackageMainPriority, firstTruthy]
  by_cases h1 : truthy (optToJS pkg.module)
  · simp [h1]
  · by_cases h2 : truthy (browserAsString pkg)
    · simp [h1, h2]
    · by_cases h3 : truthy (browserMainSub pkg)
      · simp [h1, h2, h3]
      · by_cases h4 : truthy (optToJS pkg.main)
        · simp [h1, h2, h3, h4]
        · simp [h1, h2, h3, h4]

/-! ## Helper lemmas for the browser-substitution claims -/

/-- A boolean under the exact request key makes the probe signal disabled. -/
theorem resolveOrModify_disabled_exact (m : List (String × JSVal)) (p : String)
    (b : Bool) (h : lookupJS m p = .boolean b) :
    resolveOrModify m p = .disabled := by
  simp [resolveOrModify, h]

/-- A boolean under the `./`-prefixed key makes the probe signal disabled
provided the exact key did not already carry a string. -/
theorem resolveOrModify_disabled_dot (m : List (String × JSVal)) (p : String)
    (b : Bool) (h1 : isStr (lookupJS m p) = false)
    (h2 : lookupJS m ("./" ++ p) = .boolean b) :
    resolveOrModify m p = .disabled := by
  cases hv : lookupJS m p with
  | str s => rw [hv] at h1; simp [isStr] at h1
  | boolean c => simp [resolveOrModify, hv]
  | undefined => simp [resolveOrModify, hv, h2]

/-- A boolean under the `./`-prefixed `.js`-appended key makes the probe
signal disabled provided no earlier key carried a string. -/
theorem resolveOrModify_disabled_dotjs (m : List (String × JSVal)) (p : String)
    (b : Bool) (h1 : isStr (lookupJS m p) = false)
    (h2 : isStr (lookupJS m ("./" ++ p)) = false)
    (h3 : lookupJS m ("./" ++ p ++ ".js") = .boolean b) :
    resolveOrModify m p = .disabled := by
  cases hv : lookupJS m p with
  | str s => rw [hv] at h1; simp [isStr] at h1
  | boolean c => simp [resolveOrModify, hv]
  | undefined =>
    cases hw : lookupJS m ("./" ++ p) with
    | str s => rw [hw] at h2; simp [isStr] at h2
    | boolean c => simp [resolveOrModify, hv, hw]
    | undefined => simp [resolveOrModify, hv, hw, h3]

/-- A boolean under the `./`-prefixed basename-`.js` key makes the probe
signal disabled provided no earlier key carried a string. -/
theorem resolveOrModify_disabled_basejs (m : List (String × JSVal)) (p : String)
    (b : Bool) (h1 : isStr (lookupJS m p) = false)
    (h2 : isStr (lookupJS m ("./" ++ p)) = false)
    (h3 : isStr (lookupJS m ("./" ++ p ++ ".js")) = false)
    (h4 : lookupJS m ("./" ++ pkgBasenameOf p ++ ".js") = .boolean b) :
    resolveOrModify m p = .disabled := by
  cases hv : lookupJS m p with
  | str s => rw [hv] at h1; simp [isStr] at h1
  | boolean c => simp [resolveOrModify, hv]
  | undefined =>
    cases hw : lookupJS m ("./" ++ p) with
    | str s => rw [hw] at h2; simp [isStr] at h2
    | boolean c => simp [resolveOrModify, hv, hw]
    | undefined =>
      cases hx : lookupJS m ("./" ++ p ++ ".js") with
      | str s => rw [hx] at h3; simp [isStr] at h3
      | boolean c => simp [resolveOrModify, hv, hw, hx]
      | undefined => simp [resolveOrModify, hv, hw, hx, h4]

/-- On a sub-path request into a mapping-`browser` package, a disabled probe
sets the filter's `resolved` flag. -/
theorem packageFilter_resolved_of_disabled (ma mo ver : Option String)
    (m : List (String × JSVal)) (p : String) (hp : p ≠ "")
    (hR : resolveOrModify m p = .disabled) :
    packageFilter ⟨ma, mo, .bmap m, ver⟩ p =
      ⟨mainAfterModule ⟨ma, mo, .bmap m, ver⟩, false, true⟩ := by
  simp [packageFilter, probeKeyOf, hp, hR]

/-- On a sub-path request into a mapping-`browser` package, a string match
rewrites `main` and sets the filter's `modified` flag. -/
theorem packageFilter_modified_of_probe (ma mo ver : Option String)
    (m : List (String × JSVal)) (p s : String) (hp : p ≠ "")
    (hR : resolveOrModify m p = .modified s) :
    packageFilter ⟨ma, mo, .bmap m, ver⟩ p = ⟨.str s, true, false⟩ := by
  simp [packageFilter, probeKeyOf, hp, hR]

/-! ## C1: a `false` browser-mapping entry and the empty module -/

/-- C1 (counterexample): the claim promises the empty-module path whenever
ANY probed key variant maps to `false`, but the variants are tried in order
and a string hit at an earlier variant wins.  Here `browser` maps the
`./`-prefixed sub-path to `false`, yet the exact sub-path key carries a
string substitution, so the request resolves to the rewritten path, not to
the empty module. -/
theorem resolvePackageFrom_any_variant_false_cex :
    lookupJS [("lib/foo.js", JSVal.str "./alt.js"),
        ("./lib/foo.js", JSVal.boolean false)] "./lib/foo.js" =
      JSVal.boolean false ∧
    resolvePackageFrom (fun _ => false) (fun _ => true) "/prj/node_modules/mypkg"
        ⟨some "index.js", none,
          .bmap [("lib/foo.js", JSVal.str "./alt.js"),
            ("./lib/foo.js", JSVal.boolean false)], none⟩
        "/prj/src" "/node_modules/mypkg/lib/foo.js" "/hq" ≠
      .ok "/hq/hq-empty-module.js" := by decide

/-- C1 (amended): if the FIRST probed key variant that the browser mapping
matches at all — the variants being the exact sub-path, its `./`-prefixed
form, the `./`-prefixed form with `.js` appended, and the `./`-prefixed
extension-less basename with `.js` appended, with string-typed hits at
earlier variants taking priority — carries the boolean `false`, then
`resolvePackageFrom` resolves to the empty-module stand-in
`<hqroot>/hq-empty-module.js`, for EVERY filesystem (regardless of whether
the target file exists on disk) and bypassing all file probing. -/
theorem resolvePackageFrom_first_false_empty
    (isCore fs : String → Bool) (pkgDir basedir dpath hqroot p : String)
    (ma mo ver : Option String) (m : List (String × JSVal))
    (hcore : isCore (modNameOf dpath) = false)
    (hsub : subPathOf dpath = p) (hp : p ≠ "")
    (hfalse :
      lookupJS m p = .boolean false ∨
      (isStr (lookupJS m p) = false ∧
        lookupJS m ("./" ++ p) = .boolean false) ∨
      (isStr (lookupJS m p) = false ∧ isStr (lookupJS m ("./" ++ p)) = false ∧
        lookupJS m ("./" ++ p ++ ".js") = .boolean false) ∨
      (isStr (lookupJS m p) = false ∧ isStr (lookupJS m ("./" ++ p)) = false ∧
        isStr (lookupJS m ("./" ++ p ++ ".js")) = false ∧
        lookupJS m ("./" ++ pkgBasenameOf p ++ ".js") = .boolean false)) :
    resolvePackageFrom isCore fs pkgDir ⟨ma, mo, .bmap m, ver⟩ basedir dpath hqroot =
      .ok (hqroot ++ "/hq-empty-module.js") := by
  have hR : resolveOrModify m p = .disabled := by
    rcases hfalse with h | ⟨h1, h2⟩ | ⟨h1, h2, h3⟩ | ⟨h1, h2, h3, h4⟩
    · exact resolveOrModify_disabled_exact m p false h
    · exact resolveOrModify_disabled_dot m p false h1 h2
    · exact resolveOrModify_disabled_dotjs m p false h1 h2 h3
    · exact resolveOrModify_disabled_basejs m p false h1 h2 h3 h4
  have hF := packageFilter_resolved_of_disabled ma mo ver m p hp hR
  simp [resolvePackageFrom, hcore, hsub, hF]

/-- Witness for C1 (amended): the spec's own example
`browser: {"./lib/foo.js": false}` on a filesystem where every file —
including the target — exists, still resolving to the empty module. -/
theorem resolvePackageFrom_first_false_empty_witness :
    subPathOf "/node_modules/mypkg/lib/foo.js" = "lib/foo.js" ∧
    resolvePackageFrom (fun _ => false) (fun _ => true) "/prj/node_modules/mypkg"
        ⟨some "index.js", none, .bmap [("./lib/foo.js", JSVal.boolean false)], none⟩
        "/prj/src" "/node_modules/mypkg/lib/foo.js" "/hq" =
      .ok ("/hq" ++ "/hq-empty-module.js") :=
  ⟨by decide,
   resolvePackageFrom_first_false_empty (fun _ => false) (fun _ => true)
     "/prj/node_modules/mypkg" "/prj/src" "/node_modules/mypkg/lib/foo.js" "/hq"
     "lib/foo.js" (some "index.js") none none
     [("./lib/foo.js", JSVal.boolean false)] rfl (by decide) (by decide)
     (Or.inr (Or.inl ⟨by decide, by decide⟩))⟩

/-! ## C2: a string browser-mapping entry overrides module/main -/

/-- C2 (confirmed): when the browser-mapping probe of the requested sub-path
finds a string replacement `s` (`resolveOrModify` signals modified) and the
underlying algorithm finds any candidate file for the sub-path, the request
resolves to the package directory joined with `s` — a path ending in the
replacement string.  The descriptor's `module` and `main` fields (`mo` and
`ma`) are universally quantified and absent from the conclusion: on this
request the override takes precedence over both, whatever they hold. -/
theorem resolvePackageFrom_browser_string_override
    (isCore fs : String → Bool) (pkgDir basedir dpath hqroot p s q : String)
    (ma mo ver : Option String) (m : List (String × JSVal))
    (hcore : isCore (modNameOf dpath) = false)
    (hsub : subPathOf dpath = p) (hp : p ≠ "")
    (hR : resolveOrModify m p = .modified s)
    (hcand : resolveCandidate fs (pkgDir ++ "/" ++ p) = some q) :
    resolvePackageFrom isCore fs pkgDir ⟨ma, mo, .bmap m, ver⟩ basedir dpath hqroot =
      .ok (pkgDir ++ "/" ++ s) ∧
    (∃ pre, pkgDir ++ "/" ++ s = pre ++ s) := by
  have hF := packageFilter_modified_of_probe ma mo ver m p s hp hR
  refine ⟨?_, ⟨pkgDir ++ "/", rfl⟩⟩
  simp [resolvePackageFrom, hcore, hsub, hF, targetOf, hp, hcand, strOf]

/-- Witness for C2: the spec's example
`browser: {"./lib/foo.js": "./lib/foo.browser.js"}` with both `module` and
`main` present on the same package, and the sub-path file on disk. -/
theorem resolvePackageFrom_browser_string_override_witness :
    resolveOrModify [("./lib/foo.js", JSVal.str "./lib/foo.browser.js")]
      "lib/foo.js" = .modified "./lib/foo.browser.js" ∧
    resolvePackageFrom (fun _ => false)
        (fun t => t == "/prj/node_modules/mypkg/lib/foo.js")
        "/prj/node_modules/mypkg"
        ⟨some "index.js", some "es/index.mjs",
          .bmap [("./lib/foo.js", JSVal.str "./lib/foo.browser.js")], none⟩
        "/prj/src" "/node_modules/mypkg/lib/foo.js" "/hq" =
      .ok ("/prj/node_modules/mypkg" ++ "/" ++ "./lib/foo.browser.js") ∧
    (∃ pre, "/prj/node_modules/mypkg" ++ "/" ++ "./lib/foo.browser.js" =
      pre ++ "./lib/foo.browser.js") :=
  ⟨by decide,
   (resolvePackageFrom_browser_string_override (fun _ => false)
     (fun t => t == "/prj/node_modules/mypkg/lib/foo.js")
     "/prj/node_modules/mypkg" "/prj/src" "/node_modules/mypkg/lib/foo.js" "/hq"
     "lib/foo.js" "./lib/foo.browser.js" "/prj/node_modules/mypkg/lib/foo.js"
     (some "index.js") (some "es/index.mjs")
     none [("./lib/foo.js", JSVal.str "./lib/foo.browser.js")]
     rfl (by decide) (by decide) (by decide) (by decide)).1,
   (resolvePackageFrom_browser_string_override (fun _ => false)
     (fun t => t == "/prj/node_modules/mypkg/lib/foo.js")
     "/prj/node_modules/mypkg" "/prj/src" "/node_modules/mypkg/lib/foo.js" "/hq"
     "lib/foo.js" "./lib/foo.browser.js" "/prj/node_modules/mypkg/lib/foo.js"
     (some "index.js") (some "es/index.mjs")
     none [("./lib/foo.js", JSVal.str "./lib/foo.browser.js")]
     rfl (by decide) (by decide) (by decide) (by decide)).2⟩

/-! ## C9: any boolean — true as well as false — disables -/

/-- C9 (confirmed): the disable branch of the descriptor filter tests
`typeof === 'boolean'`, not the value `false`: a matched browser-mapping key
carrying EITHER boolean short-circuits resolution to the empty-module
stand-in — under the exact sub-path key, or under the `./`-prefixed key when
the exact key is absent. -/
theorem resolvePackageFrom_boolean_disables
    (isCore fs : String → Bool) (pkgDir basedir dpath hqroot p : String)
    (ma mo ver : Option String) (m : List (String × JSVal)) (b : Bool)
    (hcore : isCore (modNameOf dpath) = false)
    (hsub : subPathOf dpath = p) (hp : p ≠ "")
    (hb : lookupJS m p = .boolean b ∨
      (lookupJS m p = .undefined ∧ lookupJS m ("./" ++ p) = .boolean b)) :
    resolvePackageFrom isCore fs pkgDir ⟨ma, mo, .bmap m, ver⟩ basedir dpath hqroot =
      .ok (hqroot ++ "/hq-empty-module.js") := by
  have hR : resolveOrModify m p = .disabled := by
    rcases hb with h | ⟨h1, h2⟩
    · exact resolveOrModify_disabled_exact m p b h
    · exact resolveOrModify_disabled_dot m p b (by rw [h1]; rfl) h2
  have hF := packageFilter_resolved_of_disabled ma mo ver m p hp hR
  simp [resolvePackageFrom, hcore, hsub, hF]

/-- Witness for C9 at the boolean `true`: `browser: {"./lib/foo.js": true}`
also sends the sub-path `lib/foo.js` to the empty module. -/
theorem resolvePackageFrom_boolean_disables_witness :
    lookupJS [("./lib/foo.js", JSVal.boolean true)] "./lib/foo.js" =
      JSVal.boolean true ∧
    resolvePackageFrom (fun _ => false) (fun _ => false) "/prj/node_modules/mypkg"
        ⟨some "index.js", none, .bmap [("./lib/foo.js", JSVal.boolean true)], none⟩
        "/prj/src" "/node_modules/mypkg/lib/foo.js" "/hq" =
      .ok ("/hq" ++ "/hq-empty-module.js") :=
  ⟨by decide,
   resolvePackageFrom_boolean_disables (fun _ => false) (fun _ => false)
     "/prj/node_modules/mypkg" "/prj/src" "/node_modules/mypkg/lib/foo.js" "/hq"
     "lib/foo.js" (some "index.js") none none
     [("./lib/foo.js", JSVal.boolean true)] true rfl (by decide) (by decide)
     (Or.inr ⟨by decide, by decide⟩)⟩

/-! ## Helper lemmas for the worker-regex claim -/

/-- A successful case-insensitive prefix test recovers the pattern as the
lowercased prefix of the scanned text. -/
theorem lowerEq_map : ∀ (pat s : List Char), lowerEq pat s = true →
    (s.take pat.length).map Char.toLower = pat
  | [], _, _ => by simp
  | _ :: _, [], h => by simp [lowerEq] at h
  | p :: ps, c :: cs, h => by
    rw [lowerEq, Bool.and_eq_true, beq_iff_eq] at h
    simp [List.take_succ_cons, lowerEq_map ps cs h.2, h.1]

/-- Conversely, a token whose lowercasing is the pattern passes the
case-insensitive prefix test whatever follows it. -/
theorem map_lowerEq : ∀ (tok t : List Char),
    lowerEq (tok.map Char.toLower) (tok ++ t) = true
  | [], _ => rfl
  | c :: tok', t => by
    rw [List.map_cons, List.cons_append, lowerEq, Bool.and_eq_true, beq_iff_eq]
    exact ⟨rfl, map_lowerEq tok' t⟩

/-- Dropping digits from a digit run followed by a boundary-starting
remainder yields exactly the remainder. -/
theorem dropWhile_digit_run (ds suf : List Char)
    (hds : ∀ c ∈ ds, c.isDigit = true) (hsuf : boundaryAfter suf = true) :
    (ds ++ suf).dropWhile Char.isDigit = suf := by
  induction ds with
  | nil =>
    cases suf with
    | nil => rfl
    | cons c cs =>
      have hw : isWordChar c = false := by simpa [boundaryAfter] using hsuf
      have hd : c.isDigit = false := by
        cases hdig : c.isDigit
        · rfl
        · simp [isWordChar, hdig] at hw
      simp [List.dropWhile, hd]
  | cons d ds' ih =>
    have hd : d.isDigit = true := hds d (List.mem_cons_self d ds')
    simp only [List.cons_append, List.dropWhile, hd]
    exact ih fun c hc => hds c (List.mem_cons_of_mem d hc)

/-- Destruction direction: a match of the worker atom at the head of `r`
splits `r` into a token, a digit run and a boundary-starting remainder. -/
theorem matchAt_destruct (r : List Char) (h : matchAt r = true) :
    ∃ tok ds suf, r = tok ++ ds ++ suf ∧
      (tok.map Char.toLower = "worker".data ∨ tok.map Char.toLower = "sw".data) ∧
      (∀ c ∈ ds, c.isDigit = true) ∧ boundaryAfter suf = true := by
  rw [matchAt, Bool.or_eq_true, Bool.and_eq_true, Bool.and_eq_true] at h
  rcases h with ⟨h1, h2⟩ | ⟨h1, h2⟩
  · refine ⟨r.take 6, (r.drop 6).takeWhile Char.isDigit,
      (r.drop 6).dropWhile Char.isDigit, ?_, Or.inl ?_,
      fun c hc => List.mem_takeWhile_imp hc, h2⟩
    · rw [List.append_assoc, List.takeWhile_append_dropWhile, List.take_append_drop]
    · have h6 : ("worker".data).length = 6 := rfl
      have := lowerEq_map "worker".data r h1
      rwa [h6] at this
  · refine ⟨r.take 2, (r.drop 2).takeWhile Char.isDigit,
      (r.drop 2).dropWhile Char.isDigit, ?_, Or.inr ?_,
      fun c hc => List.mem_takeWhile_imp hc, h2⟩
    · rw [List.append_assoc, List.takeWhile_append_dropWhile, List.take_append_drop]
    · have h2' : ("sw".data).length = 2 := rfl
      have := lowerEq_map "sw".data r h1
      rwa [h2'] at this

/-- Construction direction: the worker atom matches at the head of a token
followed by digits followed by a boundary-starting remainder. -/
theorem matchAt_append (tok ds suf : List Char)
    (htok : tok.map Char.toLower = "worker".data ∨ tok.map Char.toLower = "sw".data)
    (hds : ∀ c ∈ ds, c.isDigit = true) (hsuf : boundaryAfter suf = true) :
    matchAt (tok ++ ds ++ suf) = true := by
  have hdrop : (ds ++ suf).dropWhile Char.isDigit = suf :=
    dropWhile_digit_run ds suf hds hsuf
  rw [matchAt, Bool.or_eq_true, Bool.and_eq_true, Bool.and_eq_true]
  rcases htok with h | h
  · have hlen : tok.length = 6 := by
      have hl := congrArg List.length h
      rwa [List.length_map] at hl
    refine Or.inl ⟨?_, ?_⟩
    · rw [← h, List.append_assoc]
      exact map_lowerEq tok (ds ++ suf)
    · rw [List.append_assoc, ← hlen, List.drop_left, hdrop]
      exact hsuf
  · have hlen : tok.length = 2 := by
      have hl := congrArg List.length h
      rwa [List.length_map] at hl
    refine Or.inr ⟨?_, ?_⟩
    · rw [← h, List.append_assoc]
      exact map_lowerEq tok (ds ++ suf)
    · rw [List.append_assoc, ← hlen, List.drop_left, hdrop]
      exact hsuf

/-- The unanchored scan succeeds exactly when the atom matches at the start
of some suffix. -/
theorem scanAux_iff (l : List Char) :
    scanAux l = true ↔ ∃ pre rest, l = pre ++ rest ∧ matchAt rest = true := by
  induction l with
  | nil =>
    constructor
    · intro h
      exact absurd h (by decide)
    · rintro ⟨pre, rest, heq, hm⟩
      have hpre : pre = [] := by cases pre <;> simp_all
      have hrest : rest = [] := by simp_all
      rw [hrest] at hm
      exact absurd hm (by decide)
  | cons c cs ih =>
    rw [scanAux, Bool.or_eq_true]
    constructor
    · intro h
      rcases h with hm | hs
      · exact ⟨[], c :: cs, rfl, hm⟩
      · obtain ⟨pre, rest, heq, hm⟩ := ih.mp hs
        exact ⟨c :: pre, rest, by rw [List.cons_append, heq], hm⟩
    · rintro ⟨pre, rest, heq, hm⟩
      cases pre with
      | nil =>
        rw [List.nil_append] at heq
        rw [heq]
        exact Or.inl hm
      | cons d ds =>
        rw [List.cons_append] at heq
        injection heq with hcd hcs
        exact Or.inr (ih.mpr ⟨ds, rest, hcs, hm⟩)

/-! ## C7: what isWorker accepts -/

/-- C7 (counterexample): the regex only requires a word boundary AFTER the
optional digits; nothing anchors the left side, and the whole path — not
just the filename — is searched.  In `/src/networker.js` the filename
contains `worker` only as an interior substring, not as a whole-word token,
yet `isWorker` accepts it (the match ends at the `.`). -/
theorem isWorker_filename_token_cex :
    isWorker "/src/networker.js" = true ∧
    specWorkerFilename "/src/networker.js" = false := by decide

/-- C7 (amended): `isWorker` is true iff the PATH (directories included)
contains, anywhere, `worker` or `sw` up to case followed by zero or more
decimal digits followed by a position at which the string ends or continues
with a non-word character; the left edge of the token is unconstrained.  The
claim's concrete examples hold: `/src/worker2.js` is accepted and
`/src/workers-utils.js` is rejected. -/
theorem isWorker_regex_characterization :
    (∀ p : String, isWorker p = true ↔ workerOccurs p) ∧
    isWorker "/src/worker2.js" = true ∧
    isWorker "/src/workers-utils.js" = false := by
  refine ⟨fun p => ?_, by decide, by decide⟩
  rw [isWorker, workerRexpTest, workerOccurs, scanAux_iff]
  constructor
  · rintro ⟨pre, rest, heq, hm⟩
    obtain ⟨tok, ds, suf, hr, htok, hds, hsuf⟩ := matchAt_destruct rest hm
    refine ⟨pre, tok, ds, suf, ?_, htok, hds, hsuf⟩
    rw [heq, hr]
    simp [List.append_assoc]
  · rintro ⟨pre, tok, ds, suf, heq, htok, hds, hsuf⟩
    refine ⟨pre, tok ++ ds ++ suf, ?_, matchAt_append tok ds suf htok hds hsuf⟩
    rw [heq]
    simp [List.append_assoc]
